import Mathlib

set_option maxRecDepth 1000000

/-!
Verification development for the car-driving RL environment (`env.py`).

The simulator is embedded shallowly over an arbitrary linear ordered field `K`
with a floor structure (Python floats are idealized as exact field elements;
Python's `int()` truncation toward zero is `pytrunc`).  The transcendental
library functions (`math.cos`/`math.sin` of an angle in degrees,
`math.hypot`, `np.linalg.norm`, `math.atan2`) and the pygame track mask are
not algebraic, so they are carried as fields of the environment record
`SimEnv`; every theorem below is universally quantified over them, hence in
particular holds for the real instantiation.  The concrete track geometry
(Catmull-Rom centerline from the 9 hardcoded control points) is computed
exactly over `ℚ`.
-/

section Defs

variable {K : Type} [LinearOrderedField K] [FloorRing K]

/-- Python `int()`: truncation toward zero. -/
def pytrunc (q : K) : ℤ := if 0 ≤ q then ⌊q⌋ else -⌊-q⌋

/-- `np.clip(v, lo, hi)` = `min(hi, max(lo, v))`. -/
def np_clip (v lo hi : K) : K := min (max v lo) hi

/-- `np.linspace(0, 1, m)`: `m` evenly spaced samples from 0 to 1 inclusive. -/
def linspace01 (m : ℕ) : List ℚ :=
  if m = 0 then []
  else if m = 1 then [0]
  else (List.range m).map (fun k => (k : ℚ) / ((m - 1 : ℕ) : ℚ))

/-- One Catmull-Rom segment: the cubic blend of the quadruple `p0 p1 p2 p3`
evaluated at every parameter in `ts` (from `catmull_rom_chain`'s inner loop). -/
def catmullSeg (p0 p1 p2 p3 : ℚ × ℚ) (ts : List ℚ) : List (ℚ × ℚ) :=
  ts.map fun t =>
    let t2 := t * t
    let t3 := t2 * t
    let f1 := -(1/2) * t3 + t2 - (1/2) * t
    let f2 := (3/2) * t3 - (5/2) * t2 + 1
    let f3 := -(3/2) * t3 + 2 * t2 + (1/2) * t
    let f4 := (1/2) * t3 - (1/2) * t2
    (p0.1 * f1 + p1.1 * f2 + p2.1 * f3 + p3.1 * f4,
     p0.2 * f1 + p1.2 * f2 + p2.2 * f3 + p3.2 * f4)

/-- `catmull_rom_chain(points, count)` from `env.py`: extend the point list
cyclically (`P = P[-2:] + P + P[:2]`), then for each window of four
consecutive points emit `count // len(points)` blended samples.  The only
input on which the Python function raises is the empty list
(`ZeroDivisionError` in `count // len(points)`), modelled by `none`. -/
def catmull_rom_chain (points : List (ℚ × ℚ)) (count : ℕ) : Option (List (ℚ × ℚ)) :=
  if points.isEmpty then none
  else
    let P := points.drop (points.length - 2) ++ points ++ points.take 2
    let m := count / points.length
    some ((List.range (P.length - 4)).flatMap fun j =>
      catmullSeg (P.getD (j + 1) (0, 0)) (P.getD (j + 2) (0, 0))
        (P.getD (j + 3) (0, 0)) (P.getD (j + 4) (0, 0)) (linspace01 m))

/-- Python `range(0, stop, step)` for a positive `step` (empty when `step = 0`;
the Python original raises `ValueError` there, a case never reached here). -/
def pyrange (stop step : ℕ) : List ℕ :=
  if step = 0 then [] else List.range' 0 ((stop + step - 1) / step) step

/-- `CarEnv._make_gates(n)`: one gate every `len(centerline) // n` samples,
perpendicular to the local tangent, endpoints at `center ± perp * ROAD_RADIUS`
(`ROAD_RADIUS = 40`).  `hyp` is `math.hypot`; Python's `or 1.0` guard against
a zero tangent length is the inner `if`. -/
def make_gates (hyp : K → K → K) (cl : List (K × K)) (n : ℕ) :
    List ((K × K) × (K × K)) :=
  let step := cl.length / n
  (pyrange cl.length step).map fun i =>
    let c := cl.getD i (0, 0)
    let nxt := cl.getD ((i + 5) % cl.length) (0, 0)
    let d := (nxt.1 - c.1, nxt.2 - c.2)
    let len0 := hyp d.1 d.2
    let len := if len0 = 0 then 1 else len0
    let u := (d.1 / len, d.2 / len)
    let p := (-u.2, u.1)
    ((c.1 - p.1 * 40, c.2 - p.2 * 40), (c.1 + p.1 * 40, c.2 + p.2 * 40))

/-- The immutable environment: track geometry plus the external math-library
and pygame primitives the simulator calls (`cosd θ` stands for
`math.cos(math.radians(θ))`, `sind` likewise, `norm2` for
`np.linalg.norm` of a 2-vector, `hypot`/`atan2deg` for `math.hypot` and
`math.degrees(math.atan2 ...)`, and `mask` for `track_mask.get_at`). -/
structure SimEnv (K : Type) where
  centerline : List (K × K)
  gates : List ((K × K) × (K × K))
  mask : ℤ → ℤ → Bool
  cosd : K → K
  sind : K → K
  norm2 : K → K → K
  hypot : K → K → K
  atan2deg : K → K → K

/-- The per-episode mutable vehicle state of `CarEnv`. -/
structure SimState (K : Type) where
  x : K
  y : K
  angle : K
  speed : K
  done : Bool
  distance : K
  lifetime : ℕ
  next_gate : ℕ
  steps_since_gate : ℕ
  steps_since_improvement : ℕ
  last_fitness : K
  prev_pos : K × K
  color : ℕ × ℕ × ℕ

/-- `CarEnv._on_track`: out-of-bounds coordinates (`SCREEN_SIZE = (800, 600)`)
are never drivable; otherwise the track mask decides. -/
def on_track (env : SimEnv K) (x y : ℤ) : Bool :=
  if x < 0 || y < 0 || 800 ≤ x || 600 ≤ y then false else env.mask x y

/-- `CarEnv._ccw`. -/
def ccw (A B C : K × K) : Bool :=
  decide ((C.2 - A.2) * (B.1 - A.1) > (B.2 - A.2) * (C.1 - A.1))

/-- `CarEnv._intersect`: the standard CCW segment-intersection test. -/
def intersectSeg (A B C D : K × K) : Bool :=
  (ccw A C D != ccw B C D) && (ccw A B C != ccw A B D)

/-- `CarEnv._nearest_center_idx`: brute-force argmin of squared distance,
ties broken by the first (lowest) index exactly as Python's `min`. -/
def nearest_center_idx (cl : List (K × K)) (x y : K) : ℕ :=
  match cl.enum with
  | [] => 0
  | p :: ps =>
    (ps.foldl (fun best q =>
      if (x - q.2.1) ^ 2 + (y - q.2.2) ^ 2 <
          (x - best.2.1) ^ 2 + (y - best.2.2) ^ 2 then q else best) p).1

/-- The clamping `step` applies to the raw action `(steer, throttle, brake)`. -/
def clipAction (a : K × K × K) : K × K × K :=
  (np_clip a.1 (-1) 1, np_clip a.2.1 0 1, np_clip a.2.2 0 1)

/-- Heading after one tick: `angle += clip(steer) * 4`. -/
def newAngle (s : SimState K) (a : K × K × K) : K :=
  s.angle + np_clip a.1 (-1) 1 * 4

/-- Speed after one tick: `speed += clip(throttle)*0.25 - clip(brake)*0.3`,
then `speed *= 0.98`, then clamp to `[0, MAX_SPEED]` with `MAX_SPEED = 8`. -/
def newSpeed (s : SimState K) (a : K × K × K) : K :=
  np_clip ((s.speed + np_clip a.2.1 0 1 * (1/4) - np_clip a.2.2 0 1 * (3/10))
    * (49/50)) 0 8

/-- New x position: `x += cos(radians(angle)) * speed` (updated angle/speed). -/
def newX (env : SimEnv K) (s : SimState K) (a : K × K × K) : K :=
  s.x + env.cosd (newAngle s a) * newSpeed s a

/-- New y position: `y += sin(radians(angle)) * speed`. -/
def newY (env : SimEnv K) (s : SimState K) (a : K × K × K) : K :=
  s.y + env.sind (newAngle s a) * newSpeed s a

/-- Crash test of `step`: the new position, truncated with `int()`, is not
drivable. -/
def crashed (env : SimEnv K) (s : SimState K) (a : K × K × K) : Bool :=
  ! on_track env (pytrunc (newX env s a)) (pytrunc (newY env s a))

/-- The gate `step` tests against: `self.gates[self.next_gate]`. -/
def gateSeg (env : SimEnv K) (s : SimState K) : (K × K) × (K × K) :=
  env.gates.getD s.next_gate ((0, 0), (0, 0))

/-- Whether the movement segment (old position to new position) crosses the
currently expected gate (`CarEnv._crossed_line`). -/
def crossedGate (env : SimEnv K) (s : SimState K) (a : K × K × K) : Bool :=
  intersectSeg (s.x, s.y) (newX env s a, newY env s a)
    (gateSeg env s).1 (gateSeg env s).2

/-- The non-crash reward terms other than the gate bonus: alignment with the
local centerline tangent (`max(0, dot * 0.05)` with the epsilon-guarded
normalization `norm(tangent) + 1e-6`), forward motion `speed * 0.05`,
survival `0.02`, and the anti-spin penalty `-0.5` when `speed < 1` and
`|clip(steer)| > 0.5`. -/
def rewardBase (env : SimEnv K) (s : SimState K) (a : K × K × K) : K :=
  let steer := np_clip a.1 (-1) 1
  let sp := newSpeed s a
  let ang := newAngle s a
  let idx := nearest_center_idx env.centerline (newX env s a) (newY env s a)
  let c := env.centerline.getD idx (0, 0)
  let t := env.centerline.getD ((idx + 5) % env.centerline.length) (0, 0)
  let tangent := (t.1 - c.1, t.2 - c.2)
  let vel := (env.cosd ang * sp, env.sind ang * sp)
  let dot := (vel.1 * tangent.1 + vel.2 * tangent.2)
    / (env.norm2 tangent.1 tangent.2 + 1/1000000)
  max 0 (dot * (1/20)) + sp * (1/20) + 1/50
    + (if sp < 1 ∧ |steer| > 1/2 then -(1/2) else 0)

/-- The scalar reward of one tick: `-200` on a crash, otherwise the base
terms plus `+200` if the expected gate was crossed. -/
def stepReward (env : SimEnv K) (s : SimState K) (a : K × K × K) : K :=
  if crashed env s a then -200
  else rewardBase env s a + (if crossedGate env s a then 200 else 0)

/-- `CarEnv.step` without the observation: returns the successor state and
the reward (the returned observation is `get_obs` of the successor state and
the returned flag is its `done` field). -/
def step (env : SimEnv K) (s : SimState K) (a : K × K × K) : SimState K × K :=
  let sp := newSpeed s a
  let nx := newX env s a
  let ny := newY env s a
  let cr := crashed env s a
  let r := stepReward env s a
  let gateHit := !cr && crossedGate env s a
  let ng := if gateHit then (s.next_gate + 1) % env.gates.length else s.next_gate
  let ssg := if gateHit then 0 else s.steps_since_gate
  let fp := s.distance + r
  let improved := decide (fp > s.last_fitness)
  let lf := if improved then fp else s.last_fitness
  let ssi := if improved then 0 else s.steps_since_improvement + 1
  let dn := (s.done || cr) || decide (ssi > 100)
  ({ x := nx, y := ny, angle := newAngle s a, speed := sp, done := dn,
     distance := s.distance + sp, lifetime := s.lifetime + 1,
     next_gate := ng, steps_since_gate := ssg,
     steps_since_improvement := ssi, last_fitness := lf,
     prev_pos := (nx, ny), color := s.color }, r)

/-- Whether probe `i` of a ray at angle `ang` hits a non-drivable point:
the probe point is `int(x + cos * i * 4), int(y + sin * i * 4)`. -/
def rayHit (env : SimEnv K) (s : SimState K) (ang : K) (i : ℕ) : Bool :=
  ! on_track env (pytrunc (s.x + env.cosd ang * (i : K) * 4))
      (pytrunc (s.y + env.sind ang * (i : K) * 4))

/-- `CarEnv._cast_ray`: march `i = 1..149`; return `i * 4` at the first
non-drivable probe, else `600`. -/
def cast_ray (env : SimEnv K) (s : SimState K) (ang : K) : K :=
  match (List.range' 1 149).find? (rayHit env s ang) with
  | some i => (i : K) * 4
  | none => 600

/-- `CarEnv._get_obs`: the seven ray readings at offsets
`[-75,-50,-25,0,25,50,75]` from the heading, each divided by `150.0`,
followed by `speed / MAX_SPEED`. -/
def get_obs (env : SimEnv K) (s : SimState K) : List K :=
  (([-75, -50, -25, 0, 25, 50, 75] : List K).map
      (fun d => cast_ray env s (s.angle + d))).map (fun v => v / 150)
    ++ [s.speed / 8]

/-- `CarEnv.reset`: spawn `offset * 20` units backward along the initial
tangent from `centerline[0]`, heading along that tangent, all counters
zeroed.  The randomly drawn vehicle color is the only randomized element and
is passed in explicitly. -/
def reset (env : SimEnv K) (offset : K) (color : ℕ × ℕ × ℕ) : SimState K :=
  let base := env.centerline.getD 0 (0, 0)
  let t := env.centerline.getD 5 (0, 0)
  let dx0 := t.1 - base.1
  let dy0 := t.2 - base.2
  let len := env.hypot dx0 dy0
  let dx := dx0 / len
  let dy := dy0 / len
  { x := base.1 - dx * offset * 20, y := base.2 - dy * offset * 20,
    angle := env.atan2deg dy dx, speed := 0, done := false, distance := 0,
    lifetime := 0, next_gate := 0, steps_since_gate := 0,
    steps_since_improvement := 0, last_fitness := 0,
    prev_pos := (base.1 - dx * offset * 20, base.2 - dy * offset * 20),
    color := color }

/-- Iterated `step`, discarding rewards. -/
def runSteps (env : SimEnv K) (s : SimState K) (acts : List (K × K × K)) :
    SimState K :=
  acts.foldl (fun st a => (step env st a).1) s

/-- The per-tick `(observation, reward, done)` outputs of a `step` sequence. -/
def traceOut (env : SimEnv K) :
    SimState K → List (K × K × K) → List (List K × K × Bool)
  | _, [] => []
  | s, a :: rest =>
    (get_obs env (step env s a).1, (step env s a).2, (step env s a).1.done)
      :: traceOut env (step env s a).1 rest

/-- A whole episode's externally visible outputs: the reset observation and
the per-tick outputs. -/
def episodeOut (env : SimEnv K) (offset : K) (color : ℕ × ℕ × ℕ)
    (acts : List (K × K × K)) : List K × List (List K × K × Bool) :=
  (get_obs env (reset env offset color), traceOut env (reset env offset color) acts)

/-- Modelled from the spec's words (§4.5), for comparison with `cast_ray`:
march up to a maximum of 150 steps; the sensor value is the distance at
which the Track Field first reports non-drivable, or the maximum range
`150 × 4 = 600` if no such point is found within the step budget. -/
def cast_ray_spec (env : SimEnv K) (s : SimState K) (ang : K) : K :=
  match (List.range' 1 150).find? (rayHit env s ang) with
  | some i => (i : K) * 4
  | none => 600

/-- Checks that along a run every tick stays on track (no crash) and never
improves the fitness record (`distance + reward ≤ last_fitness`). -/
def stagnantRun (env : SimEnv K) : SimState K → List (K × K × K) → Bool
  | _, [] => true
  | s, a :: rest =>
    on_track env (pytrunc (newX env s a)) (pytrunc (newY env s a))
      && !(decide (s.distance + stepReward env s a > s.last_fitness))
      && stagnantRun env (step env s a).1 rest

end Defs

/-! Concrete reference geometry, computed exactly over `ℚ`: the nine
hardcoded control points of `CarEnv.__init__` and the 594-sample centerline
`catmull_rom_chain(pts, count=600)` (9 windows × 66 samples each). -/

/-- The control points of the track shape from `CarEnv.__init__`. -/
def ptsQ : List (ℚ × ℚ) :=
  [(120, 520), (250, 560), (500, 540), (700, 450), (740, 300), (700, 160),
   (500, 80), (250, 120), (120, 250)]

/-- The reference centerline, `catmull_rom_chain(pts, count=600)`. -/
def centerlineQ : List (ℚ × ℚ) := (catmull_rom_chain ptsQ 600).getD []

/-- The integer circle centers the track surface is stamped at:
`pygame.draw.circle(..., (int(x), int(y)), ROAD_RADIUS)` for each
centerline sample. -/
def centerlineI : List (ℤ × ℤ) :=
  centerlineQ.map (fun c => (pytrunc c.1, pytrunc c.2))

/-- Modelled from the spec: the pygame track mask
(`pygame.mask.from_threshold` over the surface on which a disk of radius
`ROAD_RADIUS = 40` is stamped at every integer-truncated centerline sample)
is not part of the repository, so per §4.2 of the spec it is modelled as
"for every centerline sample, mark all points within the corridor radius of
that sample as drivable": a pixel is drivable iff it lies within distance 40
of some stamped center. -/
def maskQ (x y : ℤ) : Bool :=
  centerlineI.any (fun c => (x - c.1) ^ 2 + (y - c.2) ^ 2 ≤ 40 ^ 2)

/-- A stand-in for `math.cos(math.radians θ)` that is exact at the one angle
(0 degrees, cosine 1) at which the counterexample below evaluates it. -/
def cosCE : ℚ → ℚ := fun θ => if θ = 0 then 1 else 0

/-- A stand-in for `math.sin(math.radians θ)` that is exact at the one angle
(0 degrees, sine 0) at which the counterexample below evaluates it. -/
def sinCE : ℚ → ℚ := fun θ => if θ = 0 then 0 else 1

/-- The modelled reference environment over `ℚ`: the exact centerline and
the disk-union track field, with the trig stubs above. -/
def envCE : SimEnv ℚ :=
  { centerline := centerlineQ, gates := [], mask := maskQ,
    cosd := cosCE, sind := sinCE, norm2 := fun _ _ => 0,
    hypot := fun _ _ => 0, atan2deg := fun _ _ => 0 }

/-- A vehicle state mid-corridor on the bottom straight of the reference
track (the centerline passes within a few units of `y = 550` for
`x ∈ [280, 430]`), heading 0 degrees, i.e. straight along the corridor. -/
def sCE : SimState ℚ :=
  { x := 280, y := 550, angle := 0, speed := 4, done := false, distance := 0,
    lifetime := 0, next_gate := 0, steps_since_gate := 0,
    steps_since_improvement := 0, last_fitness := 0, prev_pos := (280, 550),
    color := (100, 100, 100) }

/-! Small closed environments used to instantiate the general theorems in
witnesses: `envTrue` has an everywhere-drivable mask, `envFalse` an
everywhere-blocked one, and `envGate` a single gate crossing the x-axis
path of the vehicle. -/

/-- Environment whose mask reports every in-bounds pixel drivable. -/
def envTrue : SimEnv ℚ :=
  { centerline := [(0, 0)], gates := [], mask := fun _ _ => true,
    cosd := fun _ => 0, sind := fun _ => 0, norm2 := fun _ _ => 0,
    hypot := fun _ _ => 0, atan2deg := fun _ _ => 0 }

/-- Environment whose mask reports every pixel non-drivable. -/
def envFalse : SimEnv ℚ :=
  { centerline := [(0, 0)], gates := [], mask := fun _ _ => false,
    cosd := fun _ => 0, sind := fun _ => 0, norm2 := fun _ _ => 0,
    hypot := fun _ _ => 0, atan2deg := fun _ _ => 0 }

/-- Environment with one gate, the segment from `(2,0)` to `(2,9)`, and
heading-independent motion straight along the x-axis. -/
def envGate : SimEnv ℚ :=
  { centerline := [(0, 0)], gates := [((2, 0), (2, 9))], mask := fun _ _ => true,
    cosd := fun _ => 1, sind := fun _ => 0, norm2 := fun _ _ => 0,
    hypot := fun _ _ => 0, atan2deg := fun _ _ => 0 }

/-- A freshly-reset-like state at `(1, 1)`. -/
def sW : SimState ℚ :=
  { x := 1, y := 1, angle := 0, speed := 0, done := false, distance := 0,
    lifetime := 0, next_gate := 0, steps_since_gate := 0,
    steps_since_improvement := 0, last_fitness := 0, prev_pos := (1, 1),
    color := (60, 60, 60) }

/-- The state `sW` moving at speed 2. -/
def sW2 : SimState ℚ :=
  { x := 1, y := 1, angle := 0, speed := 2, done := false, distance := 0,
    lifetime := 0, next_gate := 0, steps_since_gate := 0,
    steps_since_improvement := 0, last_fitness := 0, prev_pos := (1, 1),
    color := (60, 60, 60) }

/-- 101 ticks of full steer with no throttle: reward `0.02 - 0.5 < 0` every
tick, so fitness progress never improves. -/
def actsW : List (ℚ × ℚ × ℚ) := List.replicate 101 (1, 0, 0)

/-- A three-element control-point list (fewer than the four the spec says
must be rejected). -/
def threePtsQ : List (ℚ × ℚ) := [(0, 0), (10, 0), (0, 10)]

/-- A degenerate hypot stand-in; the gate count does not depend on it. -/
def hyp0 : ℚ → ℚ → ℚ := fun _ _ => 0

/-! Helper lemmas. -/

section Lemmas

set_option linter.unusedSectionVars false

variable {K : Type} [LinearOrderedField K] [FloorRing K]

theorem np_clip_idem (v lo hi : K) (h : lo ≤ hi) :
    np_clip (np_clip v lo hi) lo hi = np_clip v lo hi := by
  unfold np_clip
  have h1 : lo ≤ min (max v lo) hi := le_min (le_max_right v lo) h
  have h2 : min (max v lo) hi ≤ hi := min_le_right _ _
  rw [max_eq_left h1, min_eq_left h2]

theorem newAngle_clip (s : SimState K) (a : K × K × K) :
    newAngle s (clipAction a) = newAngle s a := by
  unfold newAngle clipAction
  rw [np_clip_idem _ _ _ (by norm_num : (-1 : K) ≤ 1)]

theorem newSpeed_clip (s : SimState K) (a : K × K × K) :
    newSpeed s (clipAction a) = newSpeed s a := by
  unfold newSpeed clipAction
  rw [np_clip_idem _ _ _ (by norm_num : (0 : K) ≤ 1),
    np_clip_idem _ _ _ (by norm_num : (0 : K) ≤ 1)]

theorem newX_clip (env : SimEnv K) (s : SimState K) (a : K × K × K) :
    newX env s (clipAction a) = newX env s a := by
  unfold newX; rw [newAngle_clip, newSpeed_clip]

theorem newY_clip (env : SimEnv K) (s : SimState K) (a : K × K × K) :
    newY env s (clipAction a) = newY env s a := by
  unfold newY; rw [newAngle_clip, newSpeed_clip]

theorem crashed_clip (env : SimEnv K) (s : SimState K) (a : K × K × K) :
    crashed env s (clipAction a) = crashed env s a := by
  unfold crashed; rw [newX_clip, newY_clip]

theorem crossedGate_clip (env : SimEnv K) (s : SimState K) (a : K × K × K) :
    crossedGate env s (clipAction a) = crossedGate env s a := by
  unfold crossedGate; rw [newX_clip, newY_clip]

theorem rewardBase_clip (env : SimEnv K) (s : SimState K) (a : K × K × K) :
    rewardBase env s (clipAction a) = rewardBase env s a := by
  unfold rewardBase
  rw [newAngle_clip, newSpeed_clip, newX_clip, newY_clip]
  simp only [clipAction, np_clip_idem _ _ _ (show (-1 : K) ≤ 1 by norm_num)]

theorem stepReward_clip (env : SimEnv K) (s : SimState K) (a : K × K × K) :
    stepReward env s (clipAction a) = stepReward env s a := by
  unfold stepReward
  rw [crashed_clip, rewardBase_clip, crossedGate_clip]

end Lemmas

section Claims

set_option linter.unusedSectionVars false

variable {K : Type} [LinearOrderedField K] [FloorRing K]

/-- Claim C5: `step` first clamps the action to `steer ∈ [-1,1]`,
`throttle ∈ [0,1]`, `brake ∈ [0,1]` and then updates heading by
`clip(steer) * 4` degrees, speed by `+ clip(throttle)*0.25 - clip(brake)*0.3`,
then `* 0.98`, then clamping to `[0, MAX_SPEED = 8]`, and position by
`(cosd, sind)` of the new heading times the new speed — so stepping with any
raw action equals stepping with its clamped version, and the heading and
speed changes are those computed from the clamped components. -/
theorem kinematics_clamped_update (env : SimEnv K) (s : SimState K)
    (a : K × K × K) :
    step env s (clipAction a) = step env s a
    ∧ (step env s a).1.angle = s.angle + np_clip a.1 (-1) 1 * 4
    ∧ (step env s a).1.speed
        = np_clip ((s.speed + np_clip a.2.1 0 1 * (1/4)
            - np_clip a.2.2 0 1 * (3/10)) * (49/50)) 0 8
    ∧ (step env s a).1.x
        = s.x + env.cosd ((step env s a).1.angle) * (step env s a).1.speed
    ∧ (step env s a).1.y
        = s.y + env.sind ((step env s a).1.angle) * (step env s a).1.speed := by
  refine ⟨?_, rfl, rfl, rfl, rfl⟩
  simp only [step, newAngle_clip, newSpeed_clip, newX_clip, newY_clip,
    crashed_clip, stepReward_clip, crossedGate_clip]

/-- Claim C3: if the truncated new position is non-drivable, `step` sets
`done` and returns exactly `-200` with no other reward terms; moreover any
out-of-bounds coordinate (outside `[0,800) × [0,600)`) is non-drivable,
identically to leaving the corridor. -/
theorem crash_reward_and_done (env : SimEnv K) (s : SimState K) (a : K × K × K)
    (h : on_track env (pytrunc (newX env s a)) (pytrunc (newY env s a)) = false) :
    (step env s a).1.done = true ∧ (step env s a).2 = -200
    ∧ ∀ x y : ℤ, x < 0 ∨ y < 0 ∨ 800 ≤ x ∨ 600 ≤ y → on_track env x y = false := by
  have hcr : crashed env s a = true := by simp [crashed, h]
  refine ⟨?_, ?_, ?_⟩
  · simp [step, hcr]
  · simp [step, stepReward, hcr]
  · intro x y hxy
    unfold on_track
    rcases hxy with h1 | h1 | h1 | h1 <;> simp [h1]

/-- Witness for C3: in a concrete blocked environment a step crashes with
`done = true`, reward exactly `-200`, and the coordinate `(-1, 0)` outside
the world bounds is likewise non-drivable. -/
theorem crash_reward_and_done_witness :
    (step envFalse sW ((0 : ℚ), 0, 0)).1.done = true
    ∧ (step envFalse sW ((0 : ℚ), 0, 0)).2 = -200
    ∧ on_track envFalse (-1) 0 = false := by
  have h := crash_reward_and_done envFalse sW ((0 : ℚ), 0, 0)
    (by with_unfolding_all decide)
  exact ⟨h.1, h.2.1, h.2.2 (-1) 0 (Or.inl (by norm_num))⟩

/-- Claim C10: on a crash tick the per-tick bookkeeping still runs:
distance grows by the updated speed, lifetime by one, the fitness record and
stagnation counter are updated with fitness progress `distance - 200`, and
the expected-gate index and ticks-since-gate counter are unchanged. -/
theorem crash_tick_bookkeeping (env : SimEnv K) (s : SimState K) (a : K × K × K)
    (h : on_track env (pytrunc (newX env s a)) (pytrunc (newY env s a)) = false) :
    (step env s a).1.distance = s.distance + newSpeed s a
    ∧ (step env s a).1.lifetime = s.lifetime + 1
    ∧ (step env s a).1.next_gate = s.next_gate
    ∧ (step env s a).1.steps_since_gate = s.steps_since_gate
    ∧ (step env s a).1.last_fitness
        = (if s.distance - 200 > s.last_fitness then s.distance - 200
           else s.last_fitness)
    ∧ (step env s a).1.steps_since_improvement
        = (if s.distance - 200 > s.last_fitness then 0
           else s.steps_since_improvement + 1) := by
  have hcr : crashed env s a = true := by simp [crashed, h]
  have hr : stepReward env s a = -200 := by simp [stepReward, hcr]
  refine ⟨rfl, rfl, ?_, ?_, ?_, ?_⟩
  · simp [step, hcr]
  · simp [step, hcr]
  · simp [step, hr, sub_eq_add_neg]
  · simp [step, hr, sub_eq_add_neg]

/-- Witness for C10: the crash bookkeeping equalities at a concrete input. -/
theorem crash_tick_bookkeeping_witness :
    (step envFalse sW ((0 : ℚ), 1, 0)).1.distance
        = sW.distance + newSpeed sW ((0 : ℚ), 1, 0)
    ∧ (step envFalse sW ((0 : ℚ), 1, 0)).1.lifetime = sW.lifetime + 1
    ∧ (step envFalse sW ((0 : ℚ), 1, 0)).1.next_gate = sW.next_gate
    ∧ (step envFalse sW ((0 : ℚ), 1, 0)).1.steps_since_gate = sW.steps_since_gate
    ∧ (step envFalse sW ((0 : ℚ), 1, 0)).1.last_fitness
        = (if sW.distance - 200 > sW.last_fitness then sW.distance - 200
           else sW.last_fitness)
    ∧ (step envFalse sW ((0 : ℚ), 1, 0)).1.steps_since_improvement
        = (if sW.distance - 200 > sW.last_fitness then 0
           else sW.steps_since_improvement + 1) :=
  crash_tick_bookkeeping envFalse sW ((0 : ℚ), 1, 0) (by with_unfolding_all decide)

/-- Claim C7: on a non-crash tick, if the movement segment from the old to
the new position intersects the currently-expected gate segment (CCW
segment-intersection test), the reward is the base terms plus 200, the
expected gate index advances cyclically by one, and the ticks-since-gate
counter resets to 0; otherwise the reward is just the base terms and both
gate fields are unchanged. -/
theorem gate_crossing_update (env : SimEnv K) (s : SimState K) (a : K × K × K)
    (h : on_track env (pytrunc (newX env s a)) (pytrunc (newY env s a)) = true) :
    (step env s a).2
        = rewardBase env s a + (if crossedGate env s a then 200 else 0)
    ∧ (step env s a).1.next_gate
        = (if crossedGate env s a then (s.next_gate + 1) % env.gates.length
           else s.next_gate)
    ∧ (step env s a).1.steps_since_gate
        = (if crossedGate env s a then 0 else s.steps_since_gate) := by
  have hcr : crashed env s a = false := by simp [crashed, h]
  refine ⟨?_, ?_, ?_⟩
  · simp [step, stepReward, hcr]
  · simp [step, hcr]
  · simp [step, hcr]

/-- Witness for C7: in `envGate` the movement from `(1,1)` to `(2.96,1)`
crosses the gate from `(2,0)` to `(2,9)`: the crossing bonus is granted and
the gate index advances. -/
theorem gate_crossing_update_witness :
    crossedGate envGate sW2 ((0 : ℚ), 0, 0) = true
    ∧ (step envGate sW2 ((0 : ℚ), 0, 0)).2
        = rewardBase envGate sW2 ((0 : ℚ), 0, 0)
          + (if crossedGate envGate sW2 ((0 : ℚ), 0, 0) then 200 else 0)
    ∧ (step envGate sW2 ((0 : ℚ), 0, 0)).1.next_gate
        = (if crossedGate envGate sW2 ((0 : ℚ), 0, 0) then
            (sW2.next_gate + 1) % envGate.gates.length else sW2.next_gate)
    ∧ (step envGate sW2 ((0 : ℚ), 0, 0)).1.steps_since_gate
        = (if crossedGate envGate sW2 ((0 : ℚ), 0, 0) then 0
           else sW2.steps_since_gate) := by
  have h := gate_crossing_update envGate sW2 ((0 : ℚ), 0, 0)
    (by with_unfolding_all decide)
  exact ⟨by with_unfolding_all decide, h.1, h.2.1, h.2.2⟩

/-- Claim C6: the sensor cast marches in fixed steps of 4 world units for up
to 150 steps and returns the distance at which the Track Field first reports
non-drivable, or the maximum range `150 × 4 = 600` if no non-drivable point
is found within the budget — `cast_ray` (the code, which loops `i = 1..149`
and falls through to `600`) computes exactly that function, for every
environment, state and ray angle. -/
theorem cast_ray_matches_spec (env : SimEnv K) (s : SimState K) (ang : K) :
    cast_ray env s ang = cast_ray_spec env s ang := by
  unfold cast_ray cast_ray_spec
  have hsplit : List.range' 1 150 = List.range' 1 149 ++ [150] := by
    simpa using @List.range'_concat 1 1 149
  rw [hsplit, List.find?_append]
  cases hfind : (List.range' 1 149).find? (rayHit env s ang) with
  | some i => rfl
  | none =>
    cases hp : rayHit env s ang 150 with
    | true => simp [List.find?, hp]; norm_num
    | false => simp [List.find?, hp]

end Claims

section ClaimsMore

set_option linter.unusedSectionVars false

variable {K : Type} [LinearOrderedField K] [FloorRing K]

theorem step_color (env : SimEnv K) (s : SimState K) (c : ℕ × ℕ × ℕ)
    (a : K × K × K) :
    step env { s with color := c } a
      = ({ (step env s a).1 with color := c }, (step env s a).2) := rfl

theorem get_obs_color (env : SimEnv K) (s : SimState K) (c : ℕ × ℕ × ℕ) :
    get_obs env { s with color := c } = get_obs env s := rfl

theorem done_color (s : SimState K) (c : ℕ × ℕ × ℕ) :
    ({ s with color := c } : SimState K).done = s.done := rfl

theorem traceOut_color (env : SimEnv K) (acts : List (K × K × K)) :
    ∀ (s : SimState K) (c : ℕ × ℕ × ℕ),
      traceOut env { s with color := c } acts = traceOut env s acts := by
  induction acts with
  | nil => intro s c; rfl
  | cons a rest ih =>
    intro s c
    simp only [traceOut, step_color, get_obs_color, done_color, ih]

/-- Claim C9: the episode's externally visible outputs — the reset
observation and the per-tick (observation, reward, done) sequence — are a
pure function of the spawn offset and the action sequence and do not depend
on the randomly drawn vehicle color, the only randomized element of `reset`;
hence two runs with the same seed (and so the same drawn colors), the same
offset and the same actions produce identical sequences. -/
theorem episode_deterministic_color_independent (env : SimEnv K) (offset : K)
    (acts : List (K × K × K)) (c1 c2 : ℕ × ℕ × ℕ) :
    episodeOut env offset c1 acts = episodeOut env offset c2 acts := by
  unfold episodeOut
  have h1 : reset env offset c1 = { reset env offset c2 with color := c1 } := rfl
  rw [h1, get_obs_color, traceOut_color]

theorem runSteps_nil (env : SimEnv K) (s : SimState K) :
    runSteps env s [] = s := rfl

theorem runSteps_cons (env : SimEnv K) (s : SimState K) (a : K × K × K)
    (rest : List (K × K × K)) :
    runSteps env s (a :: rest) = runSteps env (step env s a).1 rest := rfl

theorem stagnantRun_cons_iff (env : SimEnv K) (s : SimState K) (a : K × K × K)
    (rest : List (K × K × K)) :
    stagnantRun env s (a :: rest) = true
      ↔ on_track env (pytrunc (newX env s a)) (pytrunc (newY env s a)) = true
        ∧ ¬ (s.distance + stepReward env s a > s.last_fitness)
        ∧ stagnantRun env (step env s a).1 rest = true := by
  simp [stagnantRun, Bool.and_eq_true, and_assoc]

theorem step_stagnant (env : SimEnv K) (s : SimState K) (a : K × K × K)
    (hcr : on_track env (pytrunc (newX env s a)) (pytrunc (newY env s a)) = true)
    (him : ¬ (s.distance + stepReward env s a > s.last_fitness)) :
    (step env s a).1.steps_since_improvement = s.steps_since_improvement + 1
    ∧ (step env s a).1.done
        = (s.done || decide (s.steps_since_improvement + 1 > 100)) := by
  have hc : crashed env s a = false := by simp [crashed, hcr]
  constructor
  · simp [step, him]
  · simp [step, hc, him]

theorem stagnantRun_take (env : SimEnv K) :
    ∀ (acts : List (K × K × K)) (k : ℕ) (s : SimState K),
      stagnantRun env s acts = true → stagnantRun env s (acts.take k) = true := by
  intro acts
  induction acts with
  | nil => intro k s _; simp [stagnantRun]
  | cons a rest ih =>
    intro k s h
    cases k with
    | zero => simp [stagnantRun]
    | succ k =>
      rw [List.take_succ_cons]
      rw [stagnantRun_cons_iff] at h ⊢
      exact ⟨h.1, h.2.1, ih k _ h.2.2⟩

theorem runSteps_alive (env : SimEnv K) :
    ∀ (acts : List (K × K × K)) (s : SimState K),
      s.done = false → stagnantRun env s acts = true →
      s.steps_since_improvement + acts.length ≤ 100 →
      (runSteps env s acts).done = false
      ∧ (runSteps env s acts).steps_since_improvement
          = s.steps_since_improvement + acts.length := by
  intro acts
  induction acts with
  | nil => intro s h0 _ _; exact ⟨h0, rfl⟩
  | cons a rest ih =>
    intro s h0 hrun hlen
    rw [stagnantRun_cons_iff] at hrun
    obtain ⟨hcr, him, hrest⟩ := hrun
    obtain ⟨hssi, hdone⟩ := step_stagnant env s a hcr him
    have hle : s.steps_since_improvement + 1 ≤ 100 := by
      simp [List.length_cons] at hlen; omega
    have hdone' : (step env s a).1.done = false := by
      rw [hdone, h0]
      simp only [Bool.false_or, decide_eq_false_iff_not]
      omega
    rw [runSteps_cons]
    have hres := ih (step env s a).1 hdone' hrest (by
      rw [hssi]; simp [List.length_cons] at hlen ⊢; omega)
    refine ⟨hres.1, ?_⟩
    rw [hres.2, hssi, List.length_cons]; omega

theorem runSteps_dies (env : SimEnv K) :
    ∀ (acts : List (K × K × K)) (s : SimState K),
      s.done = false → stagnantRun env s acts = true →
      s.steps_since_improvement ≤ 100 →
      s.steps_since_improvement + acts.length = 101 →
      (runSteps env s acts).done = true := by
  intro acts
  induction acts with
  | nil => intro s _ _ hle hlen; simp at hlen; omega
  | cons a rest ih =>
    intro s h0 hrun hle hlen
    rw [stagnantRun_cons_iff] at hrun
    obtain ⟨hcr, him, hrest⟩ := hrun
    obtain ⟨hssi, hdone⟩ := step_stagnant env s a hcr him
    rw [runSteps_cons]
    cases rest with
    | nil =>
      have h100 : s.steps_since_improvement = 100 := by
        simp [List.length_cons] at hlen; omega
      rw [runSteps_nil, hdone, h0, h100]
      simp
    | cons b rest' =>
      have hlt : s.steps_since_improvement + 1 ≤ 100 := by
        simp [List.length_cons] at hlen; omega
      have hdone' : (step env s a).1.done = false := by
        rw [hdone, h0]
        simp only [Bool.false_or, decide_eq_false_iff_not]
        omega
      exact ih (step env s a).1 hdone' hrest (by rw [hssi]; exact hlt)
        (by rw [hssi]; simp [List.length_cons] at hlen ⊢; omega)

theorem make_gates_length_of_dvd (hyp : K → K → K) (cl : List (K × K)) (n : ℕ)
    (h1 : 0 < n) (h2 : n ∣ cl.length) (h3 : cl.length ≠ 0) :
    (make_gates hyp cl n).length = n := by
  simp only [make_gates, List.length_map]
  have hnL : n ≤ cl.length := Nat.le_of_dvd (Nat.pos_of_ne_zero h3) h2
  have hstep : 0 < cl.length / n := Nat.div_pos hnL h1
  unfold pyrange
  rw [if_neg (Nat.pos_iff_ne_zero.mp hstep), List.length_range']
  set m := cl.length / n with hm
  have hLm : cl.length = m * n := by rw [hm, Nat.div_mul_cancel h2]
  rw [hLm]
  rw [Nat.add_sub_assoc (by omega : 1 ≤ m)]
  rw [Nat.mul_add_div hstep]
  rw [Nat.div_eq_of_lt (by omega : m - 1 < m)]
  omega

/-- Claim C4: starting from a state with a fresh improvement record
(stagnation counter 0, not done), a run in which fitness progress
(distance plus latest reward) never exceeds the best recorded value and no
crash occurs reaches `done = true` on exactly the 101st consecutive
non-improving tick (stagnation threshold 100 + 1), and on no earlier tick. -/
theorem stagnation_terminates_at_101 (env : SimEnv K) (s : SimState K)
    (acts : List (K × K × K)) (h0 : s.done = false)
    (h1 : s.steps_since_improvement = 0)
    (h2 : stagnantRun env s acts = true) (h3 : acts.length = 101) :
    (runSteps env s acts).done = true
    ∧ ∀ k, k ≤ 100 → (runSteps env s (acts.take k)).done = false := by
  constructor
  · exact runSteps_dies env acts s h0 h2 (by omega) (by omega)
  · intro k hk
    have htake := stagnantRun_take env acts k s h2
    have hlen : (acts.take k).length = k := by
      rw [List.length_take, h3]; omega
    exact (runSteps_alive env (acts.take k) s h0 htake (by omega)).1

/-- Witness for C4: 101 ticks of full steer with zero throttle from a fresh
state in an always-drivable environment never improve fitness
(each tick's reward is `0.02 - 0.5 < 0`); the run is done after tick 101
and not yet after tick 100. -/
theorem stagnation_terminates_at_101_witness :
    stagnantRun envTrue sW actsW = true
    ∧ (runSteps envTrue sW actsW).done = true
    ∧ (runSteps envTrue sW (actsW.take 100)).done = false := by
  have hs : stagnantRun envTrue sW actsW = true := by with_unfolding_all decide
  have h := stagnation_terminates_at_101 envTrue sW actsW rfl rfl hs (by decide)
  exact ⟨hs, h.1, h.2 100 (by norm_num)⟩

/-- Counterexample for claim C2: over the reference centerline (594 samples)
the reference gate count `n = 12` yields `step = 594 // 12 = 49` and
`range(0, 594, 49)` has 13 elements, so gate construction returns 13 line
segments, not 12; and 12 does not divide the centerline sample count 594. -/
theorem make_gates_reference_count_thirteen :
    (make_gates hyp0 centerlineQ 12).length = 13
    ∧ ¬ (12 ∣ centerlineQ.length) := by
  have hL : centerlineQ.length = 594 := by with_unfolding_all decide
  constructor
  · simp only [make_gates, List.length_map, hL]
    decide
  · rw [hL]; decide

/-- Claim C2 (amended): gate construction returns
`⌈len / (len // n)⌉` segments; this equals `n` exactly when `n` divides the
centerline sample count, and at the reference configuration
(`n = 12`, 594 samples, which 12 does not divide) it returns 13 gates. -/
theorem make_gates_count_divisor (hyp : ℚ → ℚ → ℚ) (n : ℕ) (h1 : 0 < n)
    (h2 : n ∣ centerlineQ.length) :
    (make_gates hyp centerlineQ n).length = n
    ∧ (make_gates hyp centerlineQ 12).length = 13 := by
  have hL : centerlineQ.length = 594 := by with_unfolding_all decide
  constructor
  · exact make_gates_length_of_dvd hyp centerlineQ n h1 h2 (by rw [hL]; decide)
  · simp only [make_gates, List.length_map, hL]
    decide

/-- Witness for the amended C2: `n = 6` divides 594 and indeed yields
exactly 6 gates (and the reference 12 yields 13). -/
theorem make_gates_count_divisor_witness :
    (make_gates hyp0 centerlineQ 6).length = 6
    ∧ (make_gates hyp0 centerlineQ 12).length = 13 :=
  make_gates_count_divisor hyp0 6 (by decide)
    (by have hL : centerlineQ.length = 594 := by with_unfolding_all decide
        rw [hL]; decide)

/-- Counterexample for claim C8: there is no construction-time validation:
`catmull_rom_chain` applied to only three control points (fewer than the
four the spec says must be rejected with a ConfigError) succeeds and
returns a full 600-sample centerline. -/
theorem catmull_three_points_succeeds :
    (catmull_rom_chain threePtsQ 600).isSome = true
    ∧ ((catmull_rom_chain threePtsQ 600).getD []).length = 600 := by
  constructor
  · with_unfolding_all decide
  · with_unfolding_all decide

/-- Claim C8 (amended): environment construction performs no validation at
all: `catmull_rom_chain` succeeds on every nonempty control-point list
(its only failure mode is the empty list), there is no ConfigError anywhere
in the code, and corridor radius (40) and gate count (12) are hardcoded
constants rather than validated inputs. -/
theorem catmull_no_validation (points : List (ℚ × ℚ)) (count : ℕ)
    (h : points ≠ []) : (catmull_rom_chain points count).isSome = true := by
  unfold catmull_rom_chain
  rw [if_neg (by simpa [List.isEmpty_iff] using h)]
  rfl

/-- Witness for the amended C8. -/
theorem catmull_no_validation_witness :
    (catmull_rom_chain [((0 : ℚ), 0)] 0).isSome = true :=
  catmull_no_validation [((0 : ℚ), 0)] 0 (by simp)

theorem cast_ray_bounds (env : SimEnv K) (s : SimState K) (ang : K) :
    4 ≤ cast_ray env s ang ∧ cast_ray env s ang ≤ 600 := by
  unfold cast_ray
  cases hf : (List.range' 1 149).find? (rayHit env s ang) with
  | none =>
    constructor
    · show (4 : K) ≤ 600
      norm_num
    · show (600 : K) ≤ 600
      exact le_refl _
  | some i =>
    have hmem := List.mem_of_find?_eq_some hf
    rw [List.mem_range'_1] at hmem
    constructor
    · show (4 : K) ≤ (i : K) * 4
      have h1 : (1 : K) ≤ (i : K) := by exact_mod_cast hmem.1
      nlinarith
    · show (i : K) * 4 ≤ 600
      have h2 : (i : K) ≤ 149 := by exact_mod_cast (by omega : i ≤ 149)
      nlinarith

theorem cast_ray_lb (env : SimEnv K) (s : SimState K) (ang : K) (n : ℕ)
    (hn : n < 150)
    (h : ∀ i ∈ List.range' 1 n, rayHit env s ang i = false) :
    ((n : K) + 1) * 4 ≤ cast_ray env s ang := by
  unfold cast_ray
  cases hf : (List.range' 1 149).find? (rayHit env s ang) with
  | none =>
    show ((n : K) + 1) * 4 ≤ 600
    have h1 : (n : K) ≤ 149 := by exact_mod_cast (by omega : n ≤ 149)
    nlinarith
  | some i =>
    show ((n : K) + 1) * 4 ≤ (i : K) * 4
    have hp := List.find?_some hf
    have hmem := List.mem_of_find?_eq_some hf
    rw [List.mem_range'_1] at hmem
    have hni : n < i := by
      by_contra hle
      push_neg at hle
      have hfalse := h i (by rw [List.mem_range'_1]; omega)
      rw [hfalse] at hp
      exact absurd hp (by simp)
    have h1 : (n : K) + 1 ≤ (i : K) := by exact_mod_cast hni
    nlinarith

/-- Claim C1 (amended): every observation component lies in `[0, 4]`, not
`[0, 1]`: each raw ray reading lies in `[4, 600]` (the march returns `i*4`
for some `i ∈ [1, 149]` or the maximum range 600) and is divided by the
fixed scale 150, so a sensor component lies in `[4/150, 4]` and exceeds 1
whenever the ray survives more than 37 probes; only the final component
`speed / MAX_SPEED` is guaranteed to lie in `[0, 1]` (given the speed-clamp
invariant `0 ≤ speed ≤ 8`). -/
theorem obs_components_bounded_by_four (env : SimEnv K) (s : SimState K)
    (h0 : 0 ≤ s.speed) (h8 : s.speed ≤ 8) :
    (∀ c ∈ get_obs env s, 0 ≤ c ∧ c ≤ 4)
    ∧ 0 ≤ s.speed / 8 ∧ s.speed / 8 ≤ 1 := by
  have hsp1 : s.speed / 8 ≤ 1 := by
    rw [div_le_one (by norm_num : (0 : K) < 8)]; exact h8
  have hsp0 : 0 ≤ s.speed / 8 := by positivity
  refine ⟨?_, hsp0, hsp1⟩
  intro c hc
  unfold get_obs at hc
  rw [List.mem_append] at hc
  rcases hc with hc | hc
  · rw [List.mem_map] at hc
    obtain ⟨v, hv, rfl⟩ := hc
    rw [List.mem_map] at hv
    obtain ⟨d, _, rfl⟩ := hv
    have hb := cast_ray_bounds env s (s.angle + d)
    constructor
    · have : (0 : K) ≤ cast_ray env s (s.angle + d) := by linarith [hb.1]
      positivity
    · rw [div_le_iff₀ (by norm_num : (0 : K) < 150)]
      linarith [hb.2]
  · rw [List.mem_singleton] at hc
    subst hc
    exact ⟨hsp0, by linarith⟩

/-- Witness for the amended C1: in a concrete blocked environment every ray
reads the minimum 4, the first sensor component is `4/150 ∈ [0, 4]`, and at
speed 2 the final component `2/8` lies in `[0, 1]`. -/
theorem obs_components_bounded_by_four_witness :
    ((4 : ℚ) / 150 ∈ get_obs envFalse sW2)
    ∧ (0 ≤ (4 : ℚ) / 150 ∧ (4 : ℚ) / 150 ≤ 4)
    ∧ 0 ≤ sW2.speed / 8 ∧ sW2.speed / 8 ≤ 1 := by
  have h := obs_components_bounded_by_four envFalse sW2
    (by with_unfolding_all decide) (by with_unfolding_all decide)
  have hm : (4 : ℚ) / 150 ∈ get_obs envFalse sW2 := by
    with_unfolding_all decide
  exact ⟨hm, h.1 _ hm, h.2⟩

/-- Counterexample for claim C1: the observation is not bounded by `[0, 1]`.
In the modelled reference track, at the reachable state `sCE` — mid-corridor
on the bottom straight at `(280, 550)`, heading 0 degrees straight along the
corridor — the forward ray survives at least 37 probes (every probe
`(280 + 4i, 550)`, `i ≤ 37`, lies within corridor radius 40 of a stamped
centerline sample), so the forward sensor reading is at least 152 and its
normalized observation component `reading / 150` exceeds 1. -/
theorem obs_component_exceeds_one :
    ¬ (∀ c ∈ get_obs envCE sCE, 0 ≤ c ∧ c ≤ 1) := by
  intro h
  have hmem : cast_ray envCE sCE (sCE.angle + 0) / 150 ∈ get_obs envCE sCE := by
    unfold get_obs
    refine List.mem_append_left _ ?_
    refine List.mem_map.mpr ⟨cast_ray envCE sCE (sCE.angle + 0), ?_, rfl⟩
    exact List.mem_map.mpr ⟨0, by norm_num, rfl⟩
  have hb := (h _ hmem).2
  have heq : sCE.angle + (0 : ℚ) = 0 := by norm_num [sCE]
  rw [heq] at hb
  rw [div_le_one (by norm_num : (0 : ℚ) < 150)] at hb
  have hlow : (((37 : ℕ) : ℚ) + 1) * 4 ≤ cast_ray envCE sCE 0 :=
    cast_ray_lb envCE sCE 0 37 (by norm_num)
      (by with_unfolding_all decide)
  push_cast at hlow
  linarith

end ClaimsMore
